import Mathlib

/-
Verification of the auth-service core of gsrlabs/micro-blog-hub.

Shallow embedding of:
  auth-service/internal/model/model.go        (data model)
  auth-service/internal/repository/repository.go  (credential store gateway)
  auth-service/internal/service/service.go    (account service)
  auth-service/internal/handler/middleware.go (authentication gate)
  auth-service/migrations/0001_init_users.sql (users table semantics)

The Postgres users table is modelled as a list of rows plus an id generator
and a clock; pgx driver errors, Go error values (including fmt.Errorf %w
wrapping and errors.Is), bcrypt and the golang-jwt v5 codec are modelled
explicitly below, each next to the source construct it translates.
-/

namespace MicroBlogHub

/-- UUID values are modelled as natural numbers; the store generates fresh ones. -/
abbrev UUID := Nat

/-- The uuid.Nil zero value that Go code returns alongside errors. -/
def uuidNil : UUID := 0

/-- The model.User record (model.go): the persisted account. The password
field holds the password_hash column; its Go zero value is "" when the
column is not scanned. -/
structure User where
  id        : UUID
  username  : String
  email     : String
  password  : String
  createdAt : Nat
  updatedAt : Nat
deriving DecidableEq, Repr

/-- The Postgres users table (migrations/0001_init_users.sql) together with
its id generator and clock: rows carry a store-generated unique id, and
username and email each have a UNIQUE constraint. -/
structure Store where
  rows   : List User
  nextId : UUID
  now    : Nat
deriving DecidableEq, Repr

/-- A pgconn.PgError as the repository observes it: the SQLSTATE code and the
name of the violated constraint. Postgres names the UNIQUE constraints of the
users table users_username_key and users_email_key. -/
structure PgError where
  code : String
  constraintName : String
deriving DecidableEq, Repr

/-- Errors crossing the pgx driver boundary: a Postgres error, the
pgx.ErrNoRows sentinel from QueryRow.Scan, or another driver failure. -/
inductive DBError where
  | pg (e : PgError)
  | noRows
  | other (msg : String)
deriving DecidableEq, Repr

/-- Go error values returned by the repository and service: the three
sentinel errors declared in repository.go, plain fmt.Errorf messages,
fmt.Errorf wrapping with the %w verb, and raw driver errors returned
unchanged. -/
inductive GoError where
  | notFound
  | duplicateUsername
  | duplicateEmail
  | message (s : String)
  | wrap (msg : String) (inner : GoError)
  | db (e : DBError)
deriving DecidableEq, Repr

/-- Semantics of errors.Is: walk the %w wrapping chain looking for the
target sentinel. -/
def GoError.is : GoError → GoError → Bool
  | .wrap _ inner, target => inner.is target
  | e, target => e == target

deriving instance DecidableEq for Except

/-- Constraint name Postgres assigns to the UNIQUE username column. -/
def usernameKey : String := "users_username_key"

/-- Constraint name Postgres assigns to the UNIQUE email column. -/
def emailKey : String := "users_email_key"

/-- SQLSTATE class 23505, unique_violation. -/
def uniqueViolationCode : String := "23505"

/-- Row lookup by primary key, as SELECT ... WHERE id = $1 resolves. -/
def dbFindById (s : Store) (id : UUID) : Option User :=
  s.rows.find? (fun u => u.id == id)

/-- Row lookup by email, as SELECT ... WHERE email = $1 resolves. -/
def dbFindByEmail (s : Store) (email : String) : Option User :=
  s.rows.find? (fun u => u.email == email)

/-- Semantics of INSERT INTO users (username, email, password_hash)
VALUES ($1,$2,$3) RETURNING id: a unique_violation PgError naming the
violated constraint when username or email is already taken, otherwise a
fresh id, store-assigned timestamps and the appended row. -/
def dbInsertUser (s : Store) (username email passwordHash : String) :
    Except PgError (UUID × Store) :=
  if s.rows.any (fun u => u.username == username) then
    .error ⟨uniqueViolationCode, usernameKey⟩
  else if s.rows.any (fun u => u.email == email) then
    .error ⟨uniqueViolationCode, emailKey⟩
  else
    let u : User := ⟨s.nextId, username, email, passwordHash, s.now, s.now⟩
    .ok (s.nextId, ⟨s.rows ++ [u], s.nextId + 1, s.now + 1⟩)

/-- Semantics of UPDATE users SET username = $1, updated_at = NOW() WHERE
id = $2: no matching row touches nothing and reports zero rows affected; a
matching row whose new username collides with a different row raises
unique_violation on users_username_key; otherwise one row is rewritten. -/
def dbUpdateUsername (s : Store) (username : String) (id : UUID) :
    Except PgError (Nat × Store) :=
  match dbFindById s id with
  | none => .ok (0, s)
  | some _ =>
    if s.rows.any (fun v => v.username == username && !(v.id == id)) then
      .error ⟨uniqueViolationCode, usernameKey⟩
    else
      .ok (1, ⟨s.rows.map (fun v =>
        if v.id == id then { v with username := username, updatedAt := s.now } else v),
        s.nextId, s.now + 1⟩)

/-- Semantics of UPDATE users SET email = $1, updated_at = NOW() WHERE
id = $2, mirroring dbUpdateUsername for the email UNIQUE constraint. -/
def dbUpdateEmail (s : Store) (email : String) (id : UUID) :
    Except PgError (Nat × Store) :=
  match dbFindById s id with
  | none => .ok (0, s)
  | some _ =>
    if s.rows.any (fun v => v.email == email && !(v.id == id)) then
      .error ⟨uniqueViolationCode, emailKey⟩
    else
      .ok (1, ⟨s.rows.map (fun v =>
        if v.id == id then { v with email := email, updatedAt := s.now } else v),
        s.nextId, s.now + 1⟩)

/-- Semantics of UPDATE users SET password_hash = $1, updated_at = NOW()
WHERE id = $2: no constraint can fire, so the outcome is just the number of
rows affected and the new table. -/
def dbUpdatePasswordHash (s : Store) (newHash : String) (id : UUID) : Nat × Store :=
  match dbFindById s id with
  | none => (0, s)
  | some _ =>
    (1, ⟨s.rows.map (fun v =>
      if v.id == id then { v with password := newHash, updatedAt := s.now } else v),
      s.nextId, s.now + 1⟩)

/-- Semantics of DELETE FROM users WHERE id = $1: rows affected and the
remaining table. -/
def dbDeleteUser (s : Store) (id : UUID) : Nat × Store :=
  ((s.rows.filter (fun u => u.id == id)).length,
   ⟨s.rows.filter (fun u => !(u.id == id)), s.nextId, s.now + 1⟩)

/-- Projection scanned by the listing query (repository.go:159-182): only
id, username, email, created_at, updated_at are selected, so the password
field of each scanned model.User keeps its Go zero value. -/
def scanUserRowNoHash (u : User) : User :=
  { id := u.id, username := u.username, email := u.email, password := "",
    createdAt := u.createdAt, updatedAt := u.updatedAt }

/-- Insertion step for ordering rows by created_at descending. -/
def insertByCreatedDesc (u : User) : List User → List User
  | [] => [u]
  | v :: vs =>
    if v.createdAt ≤ u.createdAt then u :: v :: vs else v :: insertByCreatedDesc u vs

/-- ORDER BY created_at DESC over the whole table. -/
def sortByCreatedDesc : List User → List User
  | [] => []
  | u :: us => insertByCreatedDesc u (sortByCreatedDesc us)

/-- Semantics of SELECT id, username, email, created_at, updated_at FROM
users ORDER BY created_at DESC LIMIT $1 OFFSET $2: Postgres rejects a
negative LIMIT (SQLSTATE 2201W) or a negative OFFSET (SQLSTATE 2201X);
otherwise the sorted page is returned through the five-column scan. -/
def dbSelectUsersPage (s : Store) (limit offset : Int) : Except PgError (List User) :=
  if limit < 0 then .error ⟨"2201W", ""⟩
  else if offset < 0 then .error ⟨"2201X", ""⟩
  else .ok ((((sortByCreatedDesc s.rows).drop offset.toNat).take limit.toNat).map
    scanUserRowNoHash)

/-- The authRepo.Create gateway (repository.go:42-57): any insert error is
wrapped as "insert user: %w" and returned with uuid.Nil. There is no 23505
classification on this path. -/
def authRepo.Create (s : Store) (user : User) : Except GoError UUID × Store :=
  match dbInsertUser s user.username user.email user.password with
  | .error e => (.error (.wrap "insert user" (.db (.pg e))), s)
  | .ok (id, s2) => (.ok id, s2)

/-- The authRepo.GetByID gateway (repository.go:59-74): the pgx error,
pgx.ErrNoRows included, is returned unchanged. -/
def authRepo.GetByID (s : Store) (id : UUID) : Except GoError User :=
  match dbFindById s id with
  | none => .error (.db .noRows)
  | some u => .ok u

/-- The authRepo.GetByEmail gateway (repository.go:76-91): the pgx error is
returned unchanged. -/
def authRepo.GetByEmail (s : Store) (email : String) : Except GoError User :=
  match dbFindByEmail s email with
  | none => .error (.db .noRows)
  | some u => .ok u

/-- The error branch of authRepo.UpdateProfile (repository.go:97-103): match
the error to a pgconn.PgError via errors.As and compare Code with "23505";
on a match return ErrDuplicateUsername, otherwise wrap as "db update
profile: %w". The constraint name carried by the error is never read. -/
def classifyUpdateProfileErr (e : PgError) : GoError :=
  if e.code == uniqueViolationCode then .duplicateUsername
  else .wrap "db update profile" (.db (.pg e))

/-- The error branch of authRepo.UpdateEmail (repository.go:116-122),
mirroring classifyUpdateProfileErr with ErrDuplicateEmail. -/
def classifyUpdateEmailErr (e : PgError) : GoError :=
  if e.code == uniqueViolationCode then .duplicateEmail
  else .wrap "db update email" (.db (.pg e))

/-- The authRepo.UpdateProfile gateway (repository.go:93-110): classify an
exec error, then report ErrNotFound when zero rows were affected. -/
def authRepo.UpdateProfile (s : Store) (id : UUID) (username : String) :
    Except GoError Unit × Store :=
  match dbUpdateUsername s username id with
  | .error e => (.error (classifyUpdateProfileErr e), s)
  | .ok (n, s2) => if n == 0 then (.error .notFound, s2) else (.ok (), s2)

/-- The authRepo.UpdateEmail gateway (repository.go:112-129). -/
def authRepo.UpdateEmail (s : Store) (id : UUID) (email : String) :
    Except GoError Unit × Store :=
  match dbUpdateEmail s email id with
  | .error e => (.error (classifyUpdateEmailErr e), s)
  | .ok (n, s2) => if n == 0 then (.error .notFound, s2) else (.ok (), s2)

/-- The authRepo.UpdatePassword gateway (repository.go:131-144): ErrNotFound
exactly when zero rows were affected. -/
def authRepo.UpdatePassword (s : Store) (userID : UUID) (newHash : String) :
    Except GoError Unit × Store :=
  let r := dbUpdatePasswordHash s newHash userID
  if r.1 == 0 then (.error .notFound, r.2) else (.ok (), r.2)

/-- The authRepo.Delete gateway (repository.go:146-157): ErrNotFound exactly
when zero rows were affected. -/
def authRepo.Delete (s : Store) (id : UUID) : Except GoError Unit × Store :=
  let r := dbDeleteUser s id
  if r.1 == 0 then (.error .notFound, r.2) else (.ok (), r.2)

/-- The LIMIT and OFFSET values authRepo.GetUsers binds into its query
(repository.go:159-167): the caller-supplied pair, verbatim; the function
body contains no normalization. -/
def authRepo.GetUsersQueryArgs (limit offset : Int) : Int × Int :=
  (limit, offset)

/-- The authRepo.GetUsers gateway (repository.go:159-182): run the listing
query with the bound arguments and scan the rows into an initialized (empty,
non-nil) slice. pgx defers query-execution errors (such as Postgres
rejecting a negative LIMIT) to rows.Err(), and the function never checks
rows.Err(): on such an error rows.Next() is immediately false, so the
caller receives the empty slice with a nil error — the store's rejection is
silently swallowed, never propagated. -/
def authRepo.GetUsers (s : Store) (limit offset : Int) : Except GoError (List User) :=
  match dbSelectUsersPage s (authRepo.GetUsersQueryArgs limit offset).1
      (authRepo.GetUsersQueryArgs limit offset).2 with
  | .error _ => .ok []
  | .ok us => .ok us

/-- Abstraction of golang.org/x/crypto/bcrypt as the service uses it: a
salted GenerateFromPassword, here an arbitrary hashing function (fixing the
salt makes it a function), and CompareHashAndPassword as a boolean match on
a hash and a plaintext. GenerateFromPassword itself fails only for
passwords beyond 72 bytes, which the service embedding checks before
applying the hash. -/
structure Bcrypt where
  generateFromPassword : String → String
  compareHashAndPassword : String → String → Bool

/-- The config.JWTConfig fields the core reads: signing secret and token
lifetime in hours. -/
structure JWTConfig where
  secret : String
  expirationHours : Nat
deriving Repr

/-- The slice of config.Config the core reads. -/
structure Config where
  jwt : JWTConfig
deriving Repr

/-- The model.CreateUserRequest payload. -/
structure CreateUserRequest where
  username : String
  email : String
  password : String
deriving Repr

/-- The model.LoginRequest payload. -/
structure LoginRequest where
  email : String
  password : String
deriving Repr

/-- The model.ChangePasswordRequest payload. -/
structure ChangePasswordRequest where
  oldPassword : String
  newPassword : String
deriving Repr

/-- JWT signing algorithms; hs256, hs384 and hs512 form the
jwt.SigningMethodHMAC family the middleware keyfunc accepts. -/
inductive SigAlg where
  | hs256
  | hs384
  | hs512
  | rs256
  | es256
  | noAlg
deriving DecidableEq, Repr

/-- Membership in the SigningMethodHMAC family, the type assertion of
middleware.go:36. -/
def SigAlg.isHMAC : SigAlg → Bool
  | .hs256 | .hs384 | .hs512 => true
  | _ => false

/-- The jwt.RegisteredClaims fields Login sets: ExpiresAt, IssuedAt, Issuer
(timestamps as unix seconds). -/
structure RegisteredClaims where
  expiresAt : Nat
  issuedAt : Nat
  issuer : String
deriving DecidableEq, Repr

/-- The model.UserClaims payload: custom UserID and Username on top of the
registered claims. -/
structure UserClaims where
  userID : UUID
  username : String
  registered : RegisteredClaims
deriving DecidableEq, Repr

/-- An HMAC signature, modelled as the data it is computed over: algorithm,
key and signed payload. Two signatures are equal exactly when those agree
(an ideal MAC, no collisions and no forgery without the key). -/
structure Signature where
  alg : SigAlg
  key : String
  payload : UserClaims
deriving DecidableEq, Repr

/-- A serialized JWT: the header algorithm, the claims and the signature.
Forged or tampered tokens are arbitrary values of this type. -/
structure Token where
  alg : SigAlg
  claims : UserClaims
  sig : Signature
deriving DecidableEq, Repr

/-- jwt.NewWithClaims followed by token.SignedString with an HMAC key. -/
def signedString (alg : SigAlg) (claims : UserClaims) (key : String) : Token :=
  ⟨alg, claims, ⟨alg, key, claims⟩⟩

/-- jwt.ParseWithClaims as the middleware calls it (middleware.go:34-45):
the keyfunc rejects any method outside the SigningMethodHMAC family, the
HMAC primitive rejects an empty key, the signature is recomputed with the
verifier's key and compared, and the registered claims are validated (the
expiry must lie strictly in the future). Fail closed: claims are returned
only when every check passes. -/
def parseWithClaims (t : Token) (key : String) (now : Nat) : Except String UserClaims :=
  if !t.alg.isHMAC then .error "unexpected signing method"
  else if key == "" then .error "key is invalid"
  else if !(t.sig == ⟨t.alg, key, t.claims⟩) then .error "signature is invalid"
  else if t.claims.registered.expiresAt ≤ now then .error "token is expired"
  else .ok t.claims

/-- The authService.Register operation (service.go:41-63): hash the password
with bcrypt first (failing as "hash password: %w" when bcrypt rejects a
too-long password), build the domain model holding only the hash, and
delegate to Create, propagating its error unchanged. -/
def authService.Register (bc : Bcrypt) (s : Store) (req : CreateUserRequest) :
    Except GoError UUID × Store :=
  if req.password.length > 72 then
    (.error (.wrap "hash password" (.message "bcrypt: password length exceeds 72 bytes")), s)
  else
    let hashedPassword := bc.generateFromPassword req.password
    let user : User := ⟨uuidNil, req.username, req.email, hashedPassword, 0, 0⟩
    authRepo.Create s user

/-- The authService.Login operation (service.go:65-105): look up by email
and answer the one message "invalid credentials" both when the lookup fails
and when the bcrypt comparison fails; on success issue an HS256 token whose
claims embed the account id, username, the fixed issuer "auth-service",
IssuedAt now and ExpiresAt now plus the configured hours. SignedString
fails, as "failed to generate token", only for an unusable key. -/
def authService.Login (bc : Bcrypt) (cfg : Config) (s : Store) (now : Nat)
    (req : LoginRequest) : Except GoError Token :=
  match authRepo.GetByEmail s req.email with
  | .error _ => .error (.message "invalid credentials")
  | .ok user =>
    if !(bc.compareHashAndPassword user.password req.password) then
      .error (.message "invalid credentials")
    else
      let expirationTime := now + cfg.jwt.expirationHours * 3600
      let claims : UserClaims := ⟨user.id, user.username, ⟨expirationTime, now, "auth-service"⟩⟩
      if cfg.jwt.secret == "" then .error (.message "failed to generate token")
      else .ok (signedString .hs256 claims cfg.jwt.secret)

/-- The authService.GetByID operation (service.go:107-115): a pure read,
propagating the repository outcome unchanged. -/
def authService.GetByID (s : Store) (id : UUID) : Except GoError User :=
  authRepo.GetByID s id

/-- The authService.ChangePassword operation (service.go:163-193): load the
account, compare the old plaintext against the stored hash and stop with
"invalid old password" on mismatch, then hash the new password and persist
it, collapsing hashing or storage failures to "internal error". -/
def authService.ChangePassword (bc : Bcrypt) (s : Store) (userID : UUID)
    (req : ChangePasswordRequest) : Except GoError Unit × Store :=
  match authRepo.GetByID s userID with
  | .error e => (.error e, s)
  | .ok user =>
    if !(bc.compareHashAndPassword user.password req.oldPassword) then
      (.error (.message "invalid old password"), s)
    else if req.newPassword.length > 72 then
      (.error (.message "internal error"), s)
    else
      match authRepo.UpdatePassword s userID (bc.generateFromPassword req.newPassword) with
      | (.error _, s2) => (.error (.message "internal error"), s2)
      | (.ok _, s2) => (.ok (), s2)

/-- The authService.Delete operation (service.go:195-203): delegate and
propagate the outcome unchanged. -/
def authService.Delete (s : Store) (userID : UUID) : Except GoError Unit × Store :=
  authRepo.Delete s userID

/-- The pagination arguments authService.GetUsers (service.go:205-213) hands
to the repository: the caller-supplied pair, verbatim; the service body
contains no normalization either. -/
def authService.GetUsersStoreArgs (limit offset : Int) : Int × Int :=
  authRepo.GetUsersQueryArgs limit offset

/-- The authService.GetUsers operation (service.go:205-213): pass-through to
the repository. -/
def authService.GetUsers (s : Store) (limit offset : Int) : Except GoError (List User) :=
  authRepo.GetUsers s limit offset

/-- Presentation of the Authorization header to the gate: absent (GetHeader
yields ""), a well-formed value of shape Bearer followed by a token, or a
malformed nonempty value of any other shape (middleware.go:19-30). -/
inductive AuthHeader where
  | absent
  | bearer (t : Token)
  | malformed (raw : String)
deriving Repr

/-- An inbound request as the gate sees it: the token cookie when readable,
and the Authorization header. -/
structure Request where
  cookieToken : Option Token
  authHeader : AuthHeader
deriving Repr

/-- Outcome of the gate: AbortWithStatusJSON with an HTTP status and error
body, or the request proceeds with userID and username set on the context
for downstream handlers. -/
inductive GateOutcome where
  | abort (status : Nat) (errorMsg : String)
  | proceed (userID : UUID) (username : String)
deriving DecidableEq, Repr

/-- The AuthHandler.AuthMiddleware gate (middleware.go:15-59): take the
token from the cookie, else from a well-formed Bearer header, rejecting with
"authorization required" when neither is present and "invalid auth header"
when the header is malformed; parse and verify the token with the process
secret, collapsing every verification failure to the one outcome 401
"invalid token"; on success attach UserID and Username to the context and
let the request proceed. -/
def AuthMiddleware (cfg : Config) (now : Nat) (r : Request) : GateOutcome :=
  let tok : Except GateOutcome Token :=
    match r.cookieToken with
    | some t => .ok t
    | none =>
      match r.authHeader with
      | .absent => .error (.abort 401 "authorization required")
      | .bearer t => .ok t
      | .malformed _ => .error (.abort 401 "invalid auth header")
  match tok with
  | .error o => o
  | .ok t =>
    match parseWithClaims t cfg.jwt.secret now with
    | .error _ => .abort 401 "invalid token"
    | .ok claims => .proceed claims.userID claims.username

/-- Executable stand-in hasher for concrete witnesses: tag the plaintext
with the bcrypt version marker; verification recomputes the tag. It
satisfies the bcrypt facts the theorems assume (round-trip verification,
and the hash never equals the plaintext). -/
def testBcrypt : Bcrypt where
  generateFromPassword p := "$2a$10$" ++ p
  compareHashAndPassword h p := h == "$2a$10$" ++ p

/-- Bcrypt fact for the stand-in hasher: the tagged hash is never the
plaintext (the real bcrypt digest is a 60-byte modular-crypt string). -/
theorem testBcrypt_hash_ne (p : String) : testBcrypt.generateFromPassword p ≠ p := by
  intro h
  have hlen := congrArg String.length h
  rw [show testBcrypt.generateFromPassword p = "$2a$10$" ++ p from rfl,
    String.length_append] at hlen
  have h7 : ("$2a$10$" : String).length = 7 := rfl
  omega

/-- The rows selected by the listing query all carry an empty password
field, whichever rows the table holds. -/
theorem dbSelectUsersPage_password_empty (s : Store) (limit offset : Int)
    (us : List User) (h : dbSelectUsersPage s limit offset = .ok us) :
    ∀ u ∈ us, u.password = "" := by
  intro u hu
  unfold dbSelectUsersPage at h
  split at h
  · exact absurd h (by simp)
  · split at h
    · exact absurd h (by simp)
    · rw [Except.ok.injEq] at h
      subst h
      obtain ⟨v, _, hv⟩ := List.mem_map.mp hu
      rw [← hv]
      rfl

/-- When the inserted username or email is already taken, the insert raises
a unique_violation PgError. -/
theorem dbInsertUser_dup (s : Store) (username email hash : String)
    (hdup : (s.rows.any (fun u => u.username == username) ||
             s.rows.any (fun u => u.email == email)) = true) :
    ∃ e : PgError, e.code = uniqueViolationCode ∧
      dbInsertUser s username email hash = .error e := by
  unfold dbInsertUser
  cases hdu : s.rows.any (fun u => u.username == username) with
  | true => exact ⟨⟨uniqueViolationCode, usernameKey⟩, rfl, by simp⟩
  | false =>
    have hde : s.rows.any (fun u => u.email == email) = true := by
      simpa [hdu] using hdup
    exact ⟨⟨uniqueViolationCode, emailKey⟩, rfl, by simp [hde]⟩

/-- Looking up the id of a freshly appended row finds that row when every
earlier row has a different id. -/
theorem find_append_fresh (rows : List User) (u : User) (tid : UUID)
    (hid : u.id = tid) (h : ∀ v ∈ rows, v.id ≠ tid) :
    (rows ++ [u]).find? (fun v => v.id == tid) = some u := by
  induction rows with
  | nil => simp [List.find?, hid]
  | cons w ws ih =>
    have hw : (w.id == tid) = false := by
      simpa using h w (List.mem_cons_self w ws)
    rw [List.cons_append]
    simp only [List.find?, hw]
    exact ih (fun v hv => h v (List.mem_cons_of_mem _ hv))

/-- A successful Create means the insert itself succeeded with the same id
and table. -/
theorem create_ok_inversion (s : Store) (user : User) (id : UUID) (s2 : Store)
    (h : authRepo.Create s user = (.ok id, s2)) :
    dbInsertUser s user.username user.email user.password = .ok (id, s2) := by
  unfold authRepo.Create at h
  cases hins : dbInsertUser s user.username user.email user.password with
  | error e =>
    rw [hins] at h
    exact absurd (congrArg Prod.fst h) (by simp)
  | ok p =>
    obtain ⟨pid, ps⟩ := p
    rw [hins] at h
    have h1 := congrArg Prod.fst h
    have h2 := congrArg Prod.snd h
    simp only [] at h1 h2
    rw [Except.ok.injEq] at h1
    rw [h1, h2]

/-- Inversion of a successful insert: the returned id is the generator's
next id and the table gained exactly the inserted row. -/
theorem dbInsertUser_ok_inversion (s : Store) (username email hash : String)
    (id : UUID) (s2 : Store)
    (h : dbInsertUser s username email hash = .ok (id, s2)) :
    id = s.nextId ∧
    s2 = ⟨s.rows ++ [⟨s.nextId, username, email, hash, s.now, s.now⟩],
      s.nextId + 1, s.now + 1⟩ := by
  unfold dbInsertUser at h
  split at h
  · exact absurd h (by simp)
  · split at h
    · exact absurd h (by simp)
    · rw [Except.ok.injEq] at h
      exact ⟨(congrArg Prod.fst h).symm, (congrArg Prod.snd h).symm⟩

/-- Removing an id from the table leaves no row carrying it. -/
theorem filter_after_remove (rows : List User) (id : UUID) :
    (rows.filter (fun v => !(v.id == id))).filter (fun v => v.id == id) = [] := by
  rw [List.filter_filter]
  simp

/-- Every row surviving the removal of an id has a different id. -/
theorem mem_remove_id_ne (rows : List User) (id : UUID) (v : User)
    (hv : v ∈ rows.filter (fun w => !(w.id == id))) : (v.id == id) = false := by
  have := (List.mem_filter.mp hv).2
  simpa using this

/-- Inversion of a successful parse: the algorithm was in the HMAC family,
the signature was computed over these claims with the verifier's key, and
the expiry lies in the future. -/
theorem parse_ok_inversion (t : Token) (key : String) (now : Nat) (c : UserClaims)
    (h : parseWithClaims t key now = .ok c) :
    t.alg.isHMAC = true ∧ t.sig = ⟨t.alg, key, t.claims⟩ ∧
    now < t.claims.registered.expiresAt ∧ c = t.claims := by
  unfold parseWithClaims at h
  split at h
  · exact absurd h (by simp)
  · split at h
    · exact absurd h (by simp)
    · split at h
      · exact absurd h (by simp)
      · split at h
        · exact absurd h (by simp)
        · rename_i h1 h2 h3 h4
          rw [Except.ok.injEq] at h
          refine ⟨by simpa using h1, by simpa using h3, by omega, h.symm⟩

/-- A request whose cookie carries an unverifiable token is rejected with
the one uniform outcome 401 "invalid token". -/
theorem gate_rejects_unparseable (cfg : Config) (now : Nat) (r : Request) (t : Token)
    (hc : r.cookieToken = some t)
    (hbad : ∀ c : UserClaims, parseWithClaims t cfg.jwt.secret now ≠ .ok c) :
    AuthMiddleware cfg now r = .abort 401 "invalid token" := by
  unfold AuthMiddleware
  cases hp : parseWithClaims t cfg.jwt.secret now with
  | error e => simp [hc, hp]
  | ok c => exact absurd hp (hbad c)

/-- Inversion of a successful Login: the account was found by email, the
password verified, the secret was usable, and the returned token is the
HS256-signed claims carrying the account's id and username, the fixed
issuer and the configured expiry. -/
theorem login_ok_inversion (bc : Bcrypt) (cfg : Config) (s : Store) (now : Nat)
    (req : LoginRequest) (tok : Token)
    (h : authService.Login bc cfg s now req = .ok tok) :
    ∃ u : User, dbFindByEmail s req.email = some u ∧
      bc.compareHashAndPassword u.password req.password = true ∧
      cfg.jwt.secret ≠ "" ∧
      tok = signedString .hs256
        ⟨u.id, u.username, ⟨now + cfg.jwt.expirationHours * 3600, now, "auth-service"⟩⟩
        cfg.jwt.secret := by
  unfold authService.Login authRepo.GetByEmail at h
  cases hfind : dbFindByEmail s req.email with
  | none =>
    rw [hfind] at h
    exact absurd h (by simp)
  | some u =>
    rw [hfind] at h
    cases hcmp : bc.compareHashAndPassword u.password req.password with
    | false => simp [hcmp] at h
    | true =>
      cases hsec : cfg.jwt.secret == "" with
      | true => simp [hcmp, hsec] at h
      | false =>
        simp only [hcmp, hsec, Bool.not_true, Bool.false_eq_true, if_false,
          Except.ok.injEq] at h
        exact ⟨u, rfl, hcmp, by simpa using hsec, h.symm⟩

/-
Claim theorems. Each claim of the specification is settled by exactly one
theorem below; corrected claims get a closed counterexample first.
-/

/-- C1: Login against a store holding no account for the requested email and
Login against a store whose account exists but whose stored hash does not
verify the supplied password return literally the same outcome: the one
undifferentiated "invalid credentials" error. A caller cannot distinguish
the two cases from the response. -/
theorem login_failure_indistinguishable
    (bc bc2 : Bcrypt) (cfg cfg2 : Config) (s s2 : Store) (now now2 : Nat)
    (req req2 : LoginRequest)
    (hnf : dbFindByEmail s req.email = none)
    (u : User) (hfound : dbFindByEmail s2 req2.email = some u)
    (hbad : bc2.compareHashAndPassword u.password req2.password = false) :
    authService.Login bc cfg s now req = authService.Login bc2 cfg2 s2 now2 req2 ∧
    authService.Login bc cfg s now req = .error (.message "invalid credentials") := by
  constructor <;>
    simp [authService.Login, authRepo.GetByEmail, hnf, hfound, hbad]

/-- Witness for C1: a concrete login against an empty store and a concrete
login with the wrong password against a one-account store yield the same
"invalid credentials" outcome. -/
theorem login_failure_indistinguishable_witness :
    authService.Login testBcrypt ⟨⟨"s", 24⟩⟩ ⟨[], 1, 0⟩ 0 ⟨"x@test.com", "p"⟩ =
      authService.Login testBcrypt ⟨⟨"s", 24⟩⟩
        ⟨[⟨1, "john", "john@test.com", "$2a$10$secret", 0, 0⟩], 2, 1⟩ 0
        ⟨"john@test.com", "wrong"⟩ ∧
    authService.Login testBcrypt ⟨⟨"s", 24⟩⟩ ⟨[], 1, 0⟩ 0 ⟨"x@test.com", "p"⟩ =
      .error (.message "invalid credentials") :=
  login_failure_indistinguishable testBcrypt testBcrypt ⟨⟨"s", 24⟩⟩ ⟨⟨"s", 24⟩⟩
    ⟨[], 1, 0⟩ ⟨[⟨1, "john", "john@test.com", "$2a$10$secret", 0, 0⟩], 2, 1⟩ 0 0
    ⟨"x@test.com", "p"⟩ ⟨"john@test.com", "wrong"⟩ (by decide)
    ⟨1, "john", "john@test.com", "$2a$10$secret", 0, 0⟩ (by decide) (by decide)

/-- C2 (counterexample): registering a username that is already taken makes
the store raise unique_violation on users_username_key, yet Register
surfaces the generic wrapped "insert user" failure — not DuplicateUsername,
neither by value nor under errors.Is. -/
theorem register_duplicate_not_classified_cex :
    (authService.Register testBcrypt
        ⟨[⟨1, "user1", "u1@test.com", "$2a$10$pw", 0, 0⟩], 2, 1⟩
        ⟨"user1", "new@test.com", "password123"⟩).1 =
      .error (.wrap "insert user" (.db (.pg ⟨uniqueViolationCode, usernameKey⟩))) ∧
    GoError.is (.wrap "insert user" (.db (.pg ⟨uniqueViolationCode, usernameKey⟩)))
      .duplicateUsername = false ∧
    (GoError.wrap "insert user" (.db (.pg ⟨uniqueViolationCode, usernameKey⟩))) ≠
      .duplicateUsername := by
  refine ⟨by decide, by decide, by decide⟩

/-- C2 (amended): on a store uniqueness violation, the create path returns
the conflict wrapped as the generic "insert user" failure — the violated
constraint is named only inside the wrapped driver error — and Register
propagates that generic error unchanged, leaving the store untouched; no
error Register ever returns satisfies errors.Is against ErrDuplicateUsername
or ErrDuplicateEmail. The 23505 classification exists only on the update
paths. -/
theorem register_duplicate_surfaces_generic
    (bc : Bcrypt) (s : Store) (req : CreateUserRequest)
    (hlen : req.password.length ≤ 72)
    (hdup : (s.rows.any (fun u => u.username == req.username) ||
             s.rows.any (fun u => u.email == req.email)) = true) :
    (∃ e : PgError, e.code = uniqueViolationCode ∧
      (authService.Register bc s req).1 = .error (.wrap "insert user" (.db (.pg e))) ∧
      (authService.Register bc s req).2 = s) ∧
    (∀ ge : GoError, (authService.Register bc s req).1 = .error ge →
      ge.is .duplicateUsername = false ∧ ge.is .duplicateEmail = false) := by
  have hl : ¬ req.password.length > 72 := by omega
  obtain ⟨e, hcode, hins⟩ :=
    dbInsertUser_dup s req.username req.email (bc.generateFromPassword req.password) hdup
  have hreg : authService.Register bc s req =
      (.error (.wrap "insert user" (.db (.pg e))), s) := by
    unfold authService.Register authRepo.Create
    rw [if_neg hl]
    simp only [hins]
  refine ⟨⟨e, hcode, by rw [hreg], by rw [hreg]⟩, ?_⟩
  intro ge hge
  rw [hreg] at hge
  rw [Except.error.injEq] at hge
  subst hge
  exact ⟨rfl, rfl⟩

/-- Witness for C2 (amended) at a concrete duplicate-username insert. -/
theorem register_duplicate_surfaces_generic_witness :
    (∃ e : PgError, e.code = uniqueViolationCode ∧
      (authService.Register testBcrypt
        ⟨[⟨1, "user1", "u1@test.com", "$2a$10$pw", 0, 0⟩], 2, 1⟩
        ⟨"user1", "new@test.com", "password123"⟩).1 =
        .error (.wrap "insert user" (.db (.pg e))) ∧
      (authService.Register testBcrypt
        ⟨[⟨1, "user1", "u1@test.com", "$2a$10$pw", 0, 0⟩], 2, 1⟩
        ⟨"user1", "new@test.com", "password123"⟩).2 =
        ⟨[⟨1, "user1", "u1@test.com", "$2a$10$pw", 0, 0⟩], 2, 1⟩) ∧
    (∀ ge : GoError,
      (authService.Register testBcrypt
        ⟨[⟨1, "user1", "u1@test.com", "$2a$10$pw", 0, 0⟩], 2, 1⟩
        ⟨"user1", "new@test.com", "password123"⟩).1 = .error ge →
      ge.is .duplicateUsername = false ∧ ge.is .duplicateEmail = false) :=
  register_duplicate_surfaces_generic testBcrypt
    ⟨[⟨1, "user1", "u1@test.com", "$2a$10$pw", 0, 0⟩], 2, 1⟩
    ⟨"user1", "new@test.com", "password123"⟩ (by decide) (by decide)

/-- C3 (code bug): no pagination normalization exists on the list path. The
service hands the repository every caller pair verbatim, so at the failing
input (-1, -1) the store is queried with LIMIT -1 OFFSET -1 — not the
normalized (10, 0) the service's own unit test (service_test.go TestGetUsers)
and the spec expect. The store rejects the negative LIMIT (SQLSTATE 2201W),
and because the repository never checks rows.Err() the rejection is
swallowed: the caller gets an empty slice with a nil error for every store
state. -/
theorem getUsers_pagination_not_normalized :
    (∀ limit offset : Int, authService.GetUsersStoreArgs limit offset = (limit, offset)) ∧
    authService.GetUsersStoreArgs (-1) (-1) = (-1, -1) ∧
    authService.GetUsersStoreArgs (-1) (-1) ≠ (10, 0) ∧
    (∀ s : Store, dbSelectUsersPage s (-1) (-1) = .error ⟨"2201W", ""⟩) ∧
    (∀ s : Store, authService.GetUsers s (-1) (-1) = .ok []) := by
  refine ⟨fun limit offset => rfl, rfl, by decide, fun s => rfl, fun s => rfl⟩

/-- C4 (counterexample): the username-update path maps a unique-violation
signal that names the email unique index to DuplicateUsername, and the
email-update path maps one naming the username unique index to
DuplicateEmail: the classification never reads which index the signal
names, refuting per-index pattern-matching. -/
theorem update_conflict_ignores_constraint_name_cex :
    classifyUpdateProfileErr ⟨uniqueViolationCode, emailKey⟩ = .duplicateUsername ∧
    classifyUpdateEmailErr ⟨uniqueViolationCode, usernameKey⟩ = .duplicateEmail := by
  exact ⟨rfl, rfl⟩

/-- C4 (amended): each update path classifies a store error by its SQLSTATE
alone: UpdateProfile yields DuplicateUsername exactly when the code is 23505
(unique_violation) and UpdateEmail yields DuplicateEmail exactly when the
code is 23505, whatever constraint name the signal carries; every other
error is wrapped generically, so the conflict kinds are per-operation, not
per-index. -/
theorem update_conflict_classified_by_sqlstate (e : PgError) :
    (classifyUpdateProfileErr e = .duplicateUsername ↔ e.code = uniqueViolationCode) ∧
    (classifyUpdateEmailErr e = .duplicateEmail ↔ e.code = uniqueViolationCode) := by
  unfold classifyUpdateProfileErr classifyUpdateEmailErr
  constructor <;> · split <;> simp_all

/-- C10: every account record the list operation returns has an empty
password field, for every store state and every limit and offset: the
listing query never selects the stored hash. -/
theorem getUsers_never_returns_password_hash
    (s : Store) (limit offset : Int) (us : List User)
    (h : authService.GetUsers s limit offset = .ok us) :
    ∀ u ∈ us, u.password = "" := by
  unfold authService.GetUsers authRepo.GetUsers at h
  split at h
  · rw [Except.ok.injEq] at h
    subst h
    intro u hu
    exact absurd hu (List.not_mem_nil u)
  · rename_i heq
    rw [Except.ok.injEq] at h
    subst h
    exact dbSelectUsersPage_password_empty _ _ _ _ heq

/-- C5: a successful Register followed by GetByID on the returned identifier
yields an account whose username and email equal the registered values and
whose stored credential is never the plaintext password — only the bcrypt
hash is persisted. Assumes the store generates fresh ids and that a bcrypt
digest never equals its plaintext. -/
theorem register_then_getByID_roundtrip
    (bc : Bcrypt) (s : Store) (req : CreateUserRequest)
    (hwf : ∀ v ∈ s.rows, v.id < s.nextId)
    (hhash : ∀ p : String, bc.generateFromPassword p ≠ p)
    (id : UUID) (s2 : Store)
    (hreg : authService.Register bc s req = (.ok id, s2)) :
    ∃ u : User, authService.GetByID s2 id = .ok u ∧
      u.username = req.username ∧ u.email = req.email ∧
      u.password ≠ req.password := by
  by_cases hl : req.password.length > 72
  · unfold authService.Register at hreg
    rw [if_pos hl] at hreg
    exact absurd (congrArg Prod.fst hreg) (by simp)
  · have hcreate : authService.Register bc s req = authRepo.Create s
        ⟨uuidNil, req.username, req.email, bc.generateFromPassword req.password, 0, 0⟩ := by
      unfold authService.Register
      rw [if_neg hl]
    rw [hcreate] at hreg
    have hins := create_ok_inversion _ _ _ _ hreg
    obtain ⟨hid, hs2⟩ := dbInsertUser_ok_inversion _ _ _ _ _ _ hins
    subst hid
    subst hs2
    refine ⟨⟨s.nextId, req.username, req.email,
      bc.generateFromPassword req.password, s.now, s.now⟩, ?_, rfl, rfl,
      hhash req.password⟩
    have hfind : dbFindById
        ⟨s.rows ++ [⟨s.nextId, req.username, req.email,
          bc.generateFromPassword req.password, s.now, s.now⟩],
          s.nextId + 1, s.now + 1⟩ s.nextId =
        some ⟨s.nextId, req.username, req.email,
          bc.generateFromPassword req.password, s.now, s.now⟩ := by
      unfold dbFindById
      exact find_append_fresh s.rows _ s.nextId rfl
        (fun v hv => Nat.ne_of_lt (hwf v hv))
    unfold authService.GetByID authRepo.GetByID
    rw [hfind]

/-- Witness for C5: registering into the empty store and reading the account
back shows matching identity fields and a stored credential differing from
the plaintext. -/
theorem register_then_getByID_roundtrip_witness :
    ∃ u : User,
      authService.GetByID
        ⟨[⟨1, "john", "j@test.com", "$2a$10$password123", 0, 0⟩], 2, 1⟩ 1 = .ok u ∧
      u.username = "john" ∧ u.email = "j@test.com" ∧ u.password ≠ "password123" :=
  register_then_getByID_roundtrip testBcrypt ⟨[], 1, 0⟩
    ⟨"john", "j@test.com", "password123"⟩ (by simp) testBcrypt_hash_ne
    1 ⟨[⟨1, "john", "j@test.com", "$2a$10$password123", 0, 0⟩], 2, 1⟩ (by decide)

/-- C6: ChangePassword with an old password that does not verify against the
stored hash returns the "invalid old password" outcome and returns the store
unchanged — no update reaches the store on this path. -/
theorem changePassword_wrong_old_is_noop
    (bc : Bcrypt) (s : Store) (userID : UUID) (req : ChangePasswordRequest) (u : User)
    (hget : authRepo.GetByID s userID = .ok u)
    (hbad : bc.compareHashAndPassword u.password req.oldPassword = false) :
    authService.ChangePassword bc s userID req =
      (.error (.message "invalid old password"), s) := by
  unfold authService.ChangePassword
  rw [hget]
  simp [hbad]

/-- Witness for C6 at a concrete account and wrong old password. -/
theorem changePassword_wrong_old_is_noop_witness :
    authService.ChangePassword testBcrypt
      ⟨[⟨1, "john", "j@test.com", "$2a$10$old", 0, 0⟩], 2, 1⟩ 1
      ⟨"wrong", "newpassword"⟩ =
    (.error (.message "invalid old password"),
      ⟨[⟨1, "john", "j@test.com", "$2a$10$old", 0, 0⟩], 2, 1⟩) :=
  changePassword_wrong_old_is_noop testBcrypt
    ⟨[⟨1, "john", "j@test.com", "$2a$10$old", 0, 0⟩], 2, 1⟩ 1
    ⟨"wrong", "newpassword"⟩ ⟨1, "john", "j@test.com", "$2a$10$old", 0, 0⟩
    (by decide) (by decide)

/-- C7: when an identifier is absent from the store, each update operation
and the delete operation affect zero rows and report NotFound; and deleting
an existing identifier succeeds once, after which a second delete reports
NotFound and GetByID no longer finds the record. -/
theorem zero_rows_affected_reports_notFound
    (s : Store) (id : UUID) (username email hash : String)
    (habs : dbFindById s id = none) :
    (authRepo.UpdateProfile s id username).1 = .error .notFound ∧
    (authRepo.UpdateEmail s id email).1 = .error .notFound ∧
    (authRepo.UpdatePassword s id hash).1 = .error .notFound ∧
    (authRepo.Delete s id).1 = .error .notFound ∧
    (∀ s2 : Store, ∀ u : User, dbFindById s2 id = some u →
      (authRepo.Delete s2 id).1 = .ok () ∧
      (authRepo.Delete (authRepo.Delete s2 id).2 id).1 = .error .notFound ∧
      authRepo.GetByID (authRepo.Delete s2 id).2 id = .error (.db .noRows)) := by
  have hnone : ∀ v ∈ s.rows, ¬ ((v.id == id) = true) := by
    intro v hv
    have := List.find?_eq_none.mp habs v hv
    simpa using this
  have hfilter : s.rows.filter (fun v => v.id == id) = [] :=
    List.filter_eq_nil_iff.mpr hnone
  refine ⟨?_, ?_, ?_, ?_, ?_⟩
  · unfold authRepo.UpdateProfile dbUpdateUsername
    rw [habs]
    rfl
  · unfold authRepo.UpdateEmail dbUpdateEmail
    rw [habs]
    rfl
  · unfold authRepo.UpdatePassword dbUpdatePasswordHash
    rw [habs]
    rfl
  · unfold authRepo.Delete dbDeleteUser
    simp [hfilter]
  · intro s2 u hu
    simp only [dbFindById] at hu
    have hp : (u.id == id) = true := by simpa using List.find?_some hu
    have hm : u ∈ s2.rows := List.mem_of_find?_eq_some hu
    have hmem : u ∈ s2.rows.filter (fun v => v.id == id) :=
      List.mem_filter.mpr ⟨hm, hp⟩
    have hpos : (s2.rows.filter (fun v => v.id == id)).length ≠ 0 := by
      intro hzero
      rw [List.length_eq_zero] at hzero
      rw [hzero] at hmem
      exact absurd hmem (List.not_mem_nil u)
    refine ⟨?_, ?_, ?_⟩
    · unfold authRepo.Delete dbDeleteUser
      simp [hpos]
    · unfold authRepo.Delete dbDeleteUser
      simp [hpos, filter_after_remove]
    · unfold authRepo.Delete dbDeleteUser authRepo.GetByID dbFindById
      have : (s2.rows.filter (fun v => !(v.id == id))).find?
          (fun v => v.id == id) = none :=
        List.find?_eq_none.mpr (fun v hv => by simp [mem_remove_id_ne s2.rows id v hv])
      simp [hpos, this]

/-- Witness for C7: the absent id 9 makes every update and the delete report
NotFound, and deleting id 1 from a one-account store succeeds exactly once. -/
theorem zero_rows_affected_reports_notFound_witness :
    (authRepo.UpdateProfile ⟨[⟨1, "u", "e@x.com", "h", 0, 0⟩], 2, 1⟩ 9 "n").1 =
      .error .notFound ∧
    (authRepo.UpdateEmail ⟨[⟨1, "u", "e@x.com", "h", 0, 0⟩], 2, 1⟩ 9 "n@x.com").1 =
      .error .notFound ∧
    (authRepo.UpdatePassword ⟨[⟨1, "u", "e@x.com", "h", 0, 0⟩], 2, 1⟩ 9 "h2").1 =
      .error .notFound ∧
    (authRepo.Delete ⟨[⟨1, "u", "e@x.com", "h", 0, 0⟩], 2, 1⟩ 9).1 =
      .error .notFound ∧
    (∀ s2 : Store, ∀ u : User, dbFindById s2 9 = some u →
      (authRepo.Delete s2 9).1 = .ok () ∧
      (authRepo.Delete (authRepo.Delete s2 9).2 9).1 = .error .notFound ∧
      authRepo.GetByID (authRepo.Delete s2 9).2 9 = .error (.db .noRows)) :=
  zero_rows_affected_reports_notFound
    ⟨[⟨1, "u", "e@x.com", "h", 0, 0⟩], 2, 1⟩ 9 "n" "n@x.com" "h2" (by decide)

/-- C8: a token issued by a successful Login and presented unexpired to the
gate — through the session cookie, or through a well-formed Bearer header
when the cookie is absent — is accepted, and the account id the gate
attaches to the context equals the id embedded in the token at issuance,
which is the id of the account that logged in. -/
theorem login_token_roundtrip_preserves_identity
    (bc : Bcrypt) (cfg : Config) (s : Store) (tIssue tCheck : Nat)
    (req : LoginRequest) (tok : Token) (r : Request)
    (hlog : authService.Login bc cfg s tIssue req = .ok tok)
    (hunexp : tCheck < tok.claims.registered.expiresAt)
    (hpresent : r.cookieToken = some tok ∨
      (r.cookieToken = none ∧ r.authHeader = .bearer tok)) :
    ∃ u : User, dbFindByEmail s req.email = some u ∧
      tok.claims.userID = u.id ∧
      AuthMiddleware cfg tCheck r = .proceed tok.claims.userID tok.claims.username := by
  obtain ⟨u, hfind, hcmp, hsec, htok⟩ := login_ok_inversion bc cfg s tIssue req tok hlog
  subst htok
  simp only [signedString] at hunexp
  have hsecb : (cfg.jwt.secret == "") = false := by simpa using hsec
  have hparse : parseWithClaims
      (signedString .hs256
        ⟨u.id, u.username, ⟨tIssue + cfg.jwt.expirationHours * 3600, tIssue, "auth-service"⟩⟩
        cfg.jwt.secret) cfg.jwt.secret tCheck =
      .ok ⟨u.id, u.username,
        ⟨tIssue + cfg.jwt.expirationHours * 3600, tIssue, "auth-service"⟩⟩ := by
    unfold parseWithClaims signedString
    simp only [SigAlg.isHMAC, Bool.not_true, Bool.false_eq_true, if_false, hsecb,
      beq_self_eq_true, Bool.not_false]
    rw [if_neg (by omega)]
  simp only [signedString] at hparse
  rcases hpresent with hc | ⟨hc, hh⟩
  · refine ⟨u, hfind, rfl, ?_⟩
    unfold AuthMiddleware
    simp [hc, hparse, signedString]
  · refine ⟨u, hfind, rfl, ?_⟩
    unfold AuthMiddleware
    simp [hc, hh, hparse, signedString]

/-- Witness for C8: a concrete login issues a token that the gate, reading
it from the cookie before expiry, accepts with the same account id. -/
theorem login_token_roundtrip_preserves_identity_witness :
    ∃ u : User,
      dbFindByEmail ⟨[⟨1, "john", "john@test.com", "$2a$10$secret", 0, 0⟩], 2, 1⟩
        "john@test.com" = some u ∧
      (signedString .hs256 ⟨1, "john", ⟨86400, 0, "auth-service"⟩⟩ "s").claims.userID =
        u.id ∧
      AuthMiddleware ⟨⟨"s", 24⟩⟩ 100
        ⟨some (signedString .hs256 ⟨1, "john", ⟨86400, 0, "auth-service"⟩⟩ "s"), .absent⟩ =
      .proceed
        (signedString .hs256 ⟨1, "john", ⟨86400, 0, "auth-service"⟩⟩ "s").claims.userID
        (signedString .hs256 ⟨1, "john", ⟨86400, 0, "auth-service"⟩⟩ "s").claims.username :=
  login_token_roundtrip_preserves_identity testBcrypt ⟨⟨"s", 24⟩⟩
    ⟨[⟨1, "john", "john@test.com", "$2a$10$secret", 0, 0⟩], 2, 1⟩ 0 100
    ⟨"john@test.com", "secret"⟩
    (signedString .hs256 ⟨1, "john", ⟨86400, 0, "auth-service"⟩⟩ "s")
    ⟨some (signedString .hs256 ⟨1, "john", ⟨86400, 0, "auth-service"⟩⟩ "s"), .absent⟩
    (by decide) (by decide) (Or.inl rfl)

/-- C9: the three verification-failure causes — signature not computed with
the gate's secret over the presented claims, signing algorithm outside the
HMAC family, and expiry in the past — each make the gate reject with the
one outcome 401 "invalid token", and the three outcomes are identical, so a
caller cannot tell an expired token from a forged one. -/
theorem gate_uniform_invalid_token
    (cfg : Config) (nowS nowA nowE : Nat) (rS rA rE : Request) (tS tA tE : Token)
    (hcS : rS.cookieToken = some tS)
    (hsig : tS.sig ≠ ⟨tS.alg, cfg.jwt.secret, tS.claims⟩)
    (hcA : rA.cookieToken = some tA)
    (halg : tA.alg.isHMAC = false)
    (hcE : rE.cookieToken = some tE)
    (hexp : tE.claims.registered.expiresAt ≤ nowE) :
    AuthMiddleware cfg nowS rS = .abort 401 "invalid token" ∧
    AuthMiddleware cfg nowA rA = .abort 401 "invalid token" ∧
    AuthMiddleware cfg nowE rE = .abort 401 "invalid token" ∧
    AuthMiddleware cfg nowS rS = AuthMiddleware cfg nowA rA ∧
    AuthMiddleware cfg nowA rA = AuthMiddleware cfg nowE rE := by
  have hS := gate_rejects_unparseable cfg nowS rS tS hcS (fun c hok =>
    absurd (parse_ok_inversion tS _ nowS c hok).2.1 hsig)
  have hA := gate_rejects_unparseable cfg nowA rA tA hcA (fun c hok => by
    have h1 := (parse_ok_inversion tA _ nowA c hok).1
    rw [halg] at h1
    exact absurd h1 (by simp))
  have hE := gate_rejects_unparseable cfg nowE rE tE hcE (fun c hok => by
    have h3 := (parse_ok_inversion tE _ nowE c hok).2.2.1
    omega)
  exact ⟨hS, hA, hE, hS.trans hA.symm, hA.trans hE.symm⟩

/-- Witness for C9: a token signed with the wrong secret, an RS256 token and
an expired HS256 token are all rejected with the same outcome. -/
theorem gate_uniform_invalid_token_witness :
    AuthMiddleware ⟨⟨"s", 24⟩⟩ 0
      ⟨some ⟨.hs256, ⟨1, "john", ⟨100, 0, "auth-service"⟩⟩,
        ⟨.hs256, "wrong", ⟨1, "john", ⟨100, 0, "auth-service"⟩⟩⟩⟩, .absent⟩ =
      .abort 401 "invalid token" ∧
    AuthMiddleware ⟨⟨"s", 24⟩⟩ 0
      ⟨some ⟨.rs256, ⟨1, "john", ⟨100, 0, "auth-service"⟩⟩,
        ⟨.rs256, "s", ⟨1, "john", ⟨100, 0, "auth-service"⟩⟩⟩⟩, .absent⟩ =
      .abort 401 "invalid token" ∧
    AuthMiddleware ⟨⟨"s", 24⟩⟩ 200
      ⟨some (signedString .hs256 ⟨1, "john", ⟨100, 0, "auth-service"⟩⟩ "s"), .absent⟩ =
      .abort 401 "invalid token" ∧
    AuthMiddleware ⟨⟨"s", 24⟩⟩ 0
      ⟨some ⟨.hs256, ⟨1, "john", ⟨100, 0, "auth-service"⟩⟩,
        ⟨.hs256, "wrong", ⟨1, "john", ⟨100, 0, "auth-service"⟩⟩⟩⟩, .absent⟩ =
    AuthMiddleware ⟨⟨"s", 24⟩⟩ 0
      ⟨some ⟨.rs256, ⟨1, "john", ⟨100, 0, "auth-service"⟩⟩,
        ⟨.rs256, "s", ⟨1, "john", ⟨100, 0, "auth-service"⟩⟩⟩⟩, .absent⟩ ∧
    AuthMiddleware ⟨⟨"s", 24⟩⟩ 0
      ⟨some ⟨.rs256, ⟨1, "john", ⟨100, 0, "auth-service"⟩⟩,
        ⟨.rs256, "s", ⟨1, "john", ⟨100, 0, "auth-service"⟩⟩⟩⟩, .absent⟩ =
    AuthMiddleware ⟨⟨"s", 24⟩⟩ 200
      ⟨some (signedString .hs256 ⟨1, "john", ⟨100, 0, "auth-service"⟩⟩ "s"), .absent⟩ :=
  gate_uniform_invalid_token ⟨⟨"s", 24⟩⟩ 0 0 200
    ⟨some ⟨.hs256, ⟨1, "john", ⟨100, 0, "auth-service"⟩⟩,
      ⟨.hs256, "wrong", ⟨1, "john", ⟨100, 0, "auth-service"⟩⟩⟩⟩, .absent⟩
    ⟨some ⟨.rs256, ⟨1, "john", ⟨100, 0, "auth-service"⟩⟩,
      ⟨.rs256, "s", ⟨1, "john", ⟨100, 0, "auth-service"⟩⟩⟩⟩, .absent⟩
    ⟨some (signedString .hs256 ⟨1, "john", ⟨100, 0, "auth-service"⟩⟩ "s"), .absent⟩
    ⟨.hs256, ⟨1, "john", ⟨100, 0, "auth-service"⟩⟩,
      ⟨.hs256, "wrong", ⟨1, "john", ⟨100, 0, "auth-service"⟩⟩⟩⟩
    ⟨.rs256, ⟨1, "john", ⟨100, 0, "auth-service"⟩⟩,
      ⟨.rs256, "s", ⟨1, "john", ⟨100, 0, "auth-service"⟩⟩⟩⟩
    (signedString .hs256 ⟨1, "john", ⟨100, 0, "auth-service"⟩⟩ "s")
    rfl (by decide) rfl (by decide) rfl (by decide)

/-- Witness for C10: listing a store whose single account has a nonempty
stored hash returns that account with an empty password field. -/
theorem getUsers_never_returns_password_hash_witness :
    (⟨1, "u", "e@x.com", "", 3, 3⟩ : User).password = "" :=
  getUsers_never_returns_password_hash
    ⟨[⟨1, "u", "e@x.com", "$2a$10$h", 3, 3⟩], 2, 4⟩ 10 0
    [⟨1, "u", "e@x.com", "", 3, 3⟩] (by decide)
    ⟨1, "u", "e@x.com", "", 3, 3⟩ (by decide)

end MicroBlogHub
